import Mathlib

/-!
# CaribouLite source module (`source_modules/cariboulite_source/src/main.cpp`)

A shallow embedding of `CaribouLiteSourceModule`: the device catalog (`refresh`,
`selectFirst`, `selectByName`), the session controller (`selectById`), the acquisition
state machine (`start`, `stop`, `tune`) and the conversion loop of `worker`.

Conventions of the embedding.

* C++ `double` values are rationals (`ℚ`); every value the module computes with is an
  integer number of Hz, which a `double` holds exactly.
* C++ `int` values are `Int`; where the source converts between `int` and `size_t`, or
  narrows a stored JSON integer to `int`, the conversion is written out with `% 2^w`.
* The external driver (`cariboulite.h`) is a record of answers, `Driver`; the calls the
  module makes to it, and the buffer and thread operations, are appended to `Module.calls`.
* An out-of-range read of `devNames` (a `std::vector<std::string>`) and a gain loop that
  cannot finish are reported as a `Fault`; an out-of-range read of `gainList` (a
  `std::vector<int>`) yields an indeterminate integer, written `none`.
-/

namespace CaribouLite

/-! ## Fixed tables -/

/-- The array `sampleRates` (lines 23-32). -/
def sampleRates : List ℚ :=
  [400000, 500000, 666000, 800000, 1000000, 1333000, 2000000, 4000000]

/-- The array `bandWidths` (lines 47-60). -/
def bandWidths : List ℚ :=
  [200000, 250000, 312500, 400000, 500000, 625000, 787500, 1000000, 1250000, 1562500,
    2000000, 2500000]

/-! ## Machine integers -/

/-- Conversion of an `int` to the 64-bit `size_t`, as in `gainId >= gainList.size()`. -/
def toSizeT (x : Int) : Nat := (x % 2 ^ 64).toNat

/-- Conversion of an integer to the 32-bit two-complement `int`. -/
def toInt32 (x : Int) : Int := (x + 2 ^ 31) % 2 ^ 32 - 2 ^ 31

/-- Truncation of a number toward zero, the integer part of a JSON number. -/
def truncToInt (q : ℚ) : Int := Int.tdiv q.num q.den

/-- Conversion of a stored JSON number to `int`, as in `int selectedSr = ...` (line 239):
the integer part, narrowed to 32 bits. -/
def jsonToInt (q : ℚ) : Int := toInt32 (truncToInt q)

/-- The read `v[i]` of a vector with an `int` index; `none` when `i` is outside the vector. -/
def vecGet {α : Type} (v : List α) (i : Int) : Option α :=
  if i < 0 then none else v.get? i.toNat

/-! ## The driver -/

/-- The answers of the external driver library to the calls the module makes. -/
structure Driver where
  /-- Result of `cariboulite_detect_connected_board`. -/
  detected : Bool
  /-- Result of `cariboulite_get_sn`, an `unsigned int`. -/
  serial : Nat
  /-- The name written by `cariboulite_get_channel_name` when it returns 0, else `none`. -/
  channelName : Nat → Option String
  /-- Whether `cariboulite_init` returns 0. -/
  initOk : Bool
  /-- Result of `cariboulite_get_radio`; `none` is `NULL`. -/
  radio : Int → Option Nat
  /-- The triple written by `cariboulite_radio_get_rx_gain_limits`: minimum, maximum, step. -/
  gainLimits : Nat → Int × Int × Int
  /-- Result of `cariboulite_radio_get_native_mtu_size_samples`. -/
  mtu : Nat → Nat
  /-- The value `cariboulite_radio_set_frequency` leaves in the `double` it is given a
  pointer to. -/
  tuned : Option Nat → ℚ → ℚ

/-- A call made by the module that acts on the driver, the sample buffer, the worker thread
or the output stream. Handles are `Option Nat`, `none` being `NULL`. -/
inductive Event where
  | init
  | get_radio (channel : Int)
  | set_rx_bandwidth (h : Option Nat) (hz : ℚ)
  | set_rx_sample_rate (h : Option Nat) (hz : ℚ)
  | set_rx_gain_control (h : Option Nat) (agc : Bool) (gain : Option Int)
  | set_frequency (h : Option Nat) (freq : ℚ)
  | activate_channel (h : Option Nat) (enable : Bool)
  | newBuffer (length : Nat)
  | deleteBuffer
  | threadStart
  | threadJoin
  | stopWriter
  | clearWriteStop
  deriving DecidableEq

/-! ## The configuration store -/

/-- The object `config.conf["devices"][name]`; a field is `none` when the key is absent. -/
structure DevEntry where
  sampleRate : Option ℚ
  bandwidth : Option ℚ
  agc : Option Bool
  gain : Option Int
  deriving DecidableEq

/-- The document `config.conf`: the key `device` (`none` when it is not a string) and the
object `devices`, an association list from display identity to entry. -/
structure Config where
  device : Option String
  devices : List (String × DevEntry)
  deriving DecidableEq

/-- The test `config.conf["devices"].contains(name)`. -/
def Config.contains (c : Config) (name : String) : Bool :=
  (c.devices.lookup name).isSome

/-- The object `config.conf["devices"][name]`; indexing an absent key yields an empty one. -/
def Config.entry (c : Config) (name : String) : DevEntry :=
  (c.devices.lookup name).getD ⟨none, none, none, none⟩

/-! ## The module -/

deriving instance DecidableEq for Except

/-- What can stop an operation from completing. -/
inductive Fault where
  /-- The read `devNames[i]` with `i` outside the vector. -/
  | catalogOutOfRange
  /-- The loop building `gainList` overflows `int` or never leaves. -/
  | gainLoop
  deriving DecidableEq

/-- The text buffer `dbTxt`, by the value formatted into it. -/
inductive DbTxt where
  /-- The initial text "--". -/
  | dashes
  /-- The text of `gainList[gainId] / 10` dB. -/
  | gain (tenths : Int)
  /-- The text of an integer read outside `gainList`. -/
  | indeterminate
  deriving DecidableEq

/-- The data members of `CaribouLiteSourceModule` (lines 553-585), with the global `config`,
the driver library flag read by `cariboulite_is_initialized`, and the log of calls. -/
structure Module where
  /-- The pointer `read_buffer`: `none` is `NULL`, `some n` a live array of `n` samples. -/
  read_buffer : Option Nat
  read_buffer_length : Nat
  openDev : Option Nat
  running : Bool
  selectedDevName : String
  devId : Int
  devCount : Int
  /-- Whether `workerThread` is joinable: a thread was launched and not yet joined. -/
  workerThread : Bool
  freq : ℚ
  bwId : Int
  bandWidth : ℚ
  srId : Int
  sampleRate : ℚ
  gainId : Int
  gainList : List Int
  agcActive : Bool
  dbTxt : DbTxt
  devNames : List String
  devListTxt : String
  config : Config
  /-- The answer of `cariboulite_is_initialized`. -/
  driverReady : Bool
  calls : List Event
  deriving DecidableEq

/-- The members declared without an initialiser and not set by the constructor (`openDev`,
`freq`, `bandWidth`): they start with whatever the memory holds. -/
structure Uninit where
  openDev : Option Nat
  freq : ℚ
  bandWidth : ℚ

/-! ## `refresh` -/

/-- A hexadecimal digit in upper case, as `%X` prints it. -/
def hexDigitUpper (d : Nat) : Char :=
  if d < 10 then Char.ofNat (48 + d) else Char.ofNat (55 + d)

/-- The digits `%X` prints for `n`, most significant first, in front of `acc`; `fuel` bounds
the number of digits. -/
def hexDigitsCore : Nat → Nat → List Char → List Char
  | 0, _, acc => acc
  | fuel + 1, n, acc =>
    if n / 16 = 0 then hexDigitUpper (n % 16) :: acc
    else hexDigitsCore fuel (n / 16) (hexDigitUpper (n % 16) :: acc)

/-- The conversion `%08X` of an `unsigned int`: its hexadecimal digits in upper case, padded
on the left with zeros to a width of at least 8. -/
def fmt08X (n : Nat) : String :=
  let ds := hexDigitsCore 8 (n % 2 ^ 32) []
  String.mk (List.replicate (8 - ds.length) (Char.ofNat 48) ++ ds)

/-- The call `sprintf(buf, "[%08X] %d:%s", serial_number, i, name)`. -/
def formatDevName (serial i : Nat) (name : String) : String :=
  "[" ++ fmt08X serial ++ "] " ++ toString i ++ ":" ++ name

/-- The loop of `refresh` (lines 164-175) from index `i`, with `todo` iterations left. -/
def refreshLoop (d : Driver) (serial : Nat) : Nat → Nat → Module → Module
  | 0, _, s => s
  | todo + 1, i, s =>
    match d.channelName i with
    | some name =>
      let buf := formatDevName serial i name
      refreshLoop d serial todo (i + 1)
        { s with devNames := s.devNames ++ [buf],
                 devListTxt := (s.devListTxt ++ buf).push (Char.ofNat 0) }
    | none => refreshLoop d serial todo (i + 1) s

/-- The method `refresh` (lines 148-176). -/
def refresh (d : Driver) (s : Module) : Module :=
  let s1 := { s with devNames := [], devListTxt := "" }
  let s2 := { s1 with devCount := if d.detected then 2 else 0 }
  refreshLoop d d.serial s2.devCount.toNat 0 s2

/-! ## `selectById` -/

/-- The loop `for (int gain = min_gain; gain <= max_gain; gain += step_gain)` (lines
220-223) at the test of its condition, with `acc` the elements pushed so far. The result is
`none` when `gain += step_gain` leaves the range of `int`, or when `fuel` tests were not
enough. -/
def gainLoop (max_gain step_gain : Int) : Nat → Int → List Int → Option (List Int)
  | 0, _, _ => none
  | fuel + 1, gain, acc =>
    if gain ≤ max_gain then
      if gain + step_gain < -2 ^ 31 ∨ 2 ^ 31 ≤ gain + step_gain then none
      else gainLoop max_gain step_gain fuel (gain + step_gain) (acc ++ [gain])
    else some acc

/-- The gain table built by lines 215-223 from the limits the driver reports. With a
positive step the loop tests its condition at most `max_gain - min_gain + 2` times; with
a step that is not positive and `min_gain <= max_gain` it never leaves. -/
def rxGainList (min_gain max_gain step_gain : Int) : Option (List Int) :=
  gainLoop max_gain step_gain ((max_gain - min_gain).toNat + 2) min_gain []

/-- The method `updateGainTxt` (lines 548-550). -/
def updateGainTxt (s : Module) : Module :=
  { s with dbTxt := match vecGet s.gainList s.gainId with
                    | some g => DbTxt.gain g
                    | none => DbTxt.indeterminate }

/-- The search loops of lines 240-246 and 251-257: the first index at or after `i` whose
table entry equals the `int` value `v`. -/
def scanTable : List ℚ → Nat → Int → Option Nat
  | [], _, _ => none
  | x :: xs, i, v => if x = (v : ℚ) then some i else scanTable xs (i + 1) v

/-- Lines 229-232: the fields of the entry written for a display identity the store does
not hold, given the members `agcActive` and `gainId`. -/
def newEntry (agcActive : Bool) (gainId : Int) : DevEntry :=
  { sampleRate := some 4000000, bandwidth := some 2500000, agc := some agcActive,
    gain := some gainId }

/-- Lines 225-233: an entry is written when the store holds none for the selected display
identity. -/
def createEntry (s : Module) : Module :=
  if s.config.contains s.selectedDevName then s
  else
    { s with config :=
        { s.config with devices :=
            (s.selectedDevName, newEntry s.agcActive s.gainId) :: s.config.devices } }

/-- Line 234: `if (gainId >= gainList.size()) { gainId = gainList.size() - 1; }`, a
comparison and a subtraction in `size_t`. -/
def clampGainId (s : Module) : Module :=
  if s.gainList.length ≤ toSizeT s.gainId then
    { s with gainId := toInt32 (((s.gainList.length : Int) - 1) % 2 ^ 64) }
  else s

/-- Lines 238-247: load of the stored sample rate. -/
def loadSampleRate (s : Module) : Module :=
  match (s.config.entry s.selectedDevName).sampleRate with
  | some v =>
    let selectedSr := jsonToInt v
    match scanTable sampleRates 0 selectedSr with
    | some i => { s with srId := i, sampleRate := selectedSr }
    | none => s
  | none => s

/-- Lines 249-258: load of the stored bandwidth. -/
def loadBandwidth (s : Module) : Module :=
  match (s.config.entry s.selectedDevName).bandwidth with
  | some v =>
    let selectedBw := jsonToInt v
    match scanTable bandWidths 0 selectedBw with
    | some i => { s with bwId := i, bandWidth := selectedBw }
    | none => s
  | none => s

/-- Lines 260-262: load of the stored AGC flag. -/
def loadAgc (s : Module) : Module :=
  match (s.config.entry s.selectedDevName).agc with
  | some b => { s with agcActive := b }
  | none => s

/-- Lines 264-267: load of the stored gain index. -/
def loadGain (s : Module) : Module :=
  match (s.config.entry s.selectedDevName).gain with
  | some g => updateGainTxt { s with gainId := toInt32 g }
  | none => s

/-- The method `selectById` (lines 194-272). -/
def selectById (d : Driver) (id : Int) (s : Module) : Except Fault Module :=
  match vecGet s.devNames id with
  | none => Except.error Fault.catalogOutOfRange
  | some name =>
    let s1 := { s with selectedDevName := name }
    if s1.driverReady = false ∧ d.initOk = false then
      Except.ok { s1 with calls := s1.calls ++ [Event.init] }
    else
      let s2 := if s1.driverReady then s1
                else { s1 with driverReady := true, calls := s1.calls ++ [Event.init] }
      let s3 := { s2 with openDev := d.radio id, calls := s2.calls ++ [Event.get_radio id] }
      match s3.openDev with
      | none => Except.ok { s3 with selectedDevName := "" }
      | some h =>
        match rxGainList (d.gainLimits h).1 (d.gainLimits h).2.1 (d.gainLimits h).2.2 with
        | none => Except.error Fault.gainLoop
        | some gains =>
          let s4 := { s3 with gainList := gains }
          let s5 := updateGainTxt (clampGainId (createEntry s4))
          Except.ok (loadGain (loadAgc (loadBandwidth (loadSampleRate s5))))

/-! ## `selectFirst`, `selectByName`, the constructor -/

/-- The method `selectFirst` (lines 178-182). -/
def selectFirst (d : Driver) (s : Module) : Except Fault Module :=
  if 0 < s.devCount then selectById d 0 s else Except.ok s

/-- The loop of `selectByName` (lines 185-190) from index `i`, with `todo` iterations left,
followed by the call of `selectFirst` on line 191. -/
def selectByNameLoop (d : Driver) (name : String) (s : Module) :
    Nat → Nat → Except Fault Module
  | 0, _ => selectFirst d s
  | todo + 1, i =>
    match vecGet s.devNames i with
    | none => Except.error Fault.catalogOutOfRange
    | some n => if name = n then selectById d i s else selectByNameLoop d name s todo (i + 1)

/-- The method `selectByName` (lines 184-192). -/
def selectByName (d : Driver) (name : String) (s : Module) : Except Fault Module :=
  selectByNameLoop d name s s.devCount.toNat 0

/-- The module after the member initialisers and line 86 of the constructor. -/
def initialMembers (cfg : Config) (u : Uninit) : Module :=
  { read_buffer := none, read_buffer_length := 0, openDev := u.openDev, running := false,
    selectedDevName := "", devId := 0, devCount := 0, workerThread := false, freq := u.freq,
    bwId := 0, bandWidth := u.bandWidth, srId := 0, sampleRate := 400000, gainId := 0,
    gainList := [], agcActive := false, dbTxt := DbTxt.dashes, devNames := [],
    devListTxt := "", config := cfg, driverReady := false, calls := [] }

/-- Lines 111-119 of the constructor: the last selected display identity is read from the
store, which gets the empty string when it holds no string there. -/
def loadDeviceKey (s : Module) : Module :=
  match s.config.device with
  | none => { s with selectedDevName := "", config := { s.config with device := some "" } }
  | some name => { s with selectedDevName := name }

/-- The constructor (lines 81-123), in a process whose driver library is not initialised. -/
def construct (d : Driver) (cfg : Config) (u : Uninit) : Except Fault Module :=
  let s := loadDeviceKey (refresh d (initialMembers cfg u))
  selectByName d s.selectedDevName s

/-! ## `start`, `stop`, `tune` -/

/-- The handler `start` (lines 301-338). The array `new` either returns an array or throws,
so the test on line 319 never holds. -/
def start (d : Driver) (s : Module) : Module :=
  if s.running then s
  else if s.selectedDevName = "" then s
  else
    let s1 := { s with openDev := d.radio s.devId,
                       calls := s.calls ++ [Event.get_radio s.devId] }
    match s1.openDev with
    | none => s1
    | some h =>
      let s2 := { s1 with read_buffer_length := d.mtu h }
      let s3 := { s2 with read_buffer := some s2.read_buffer_length,
                          calls := s2.calls ++ [Event.newBuffer s2.read_buffer_length] }
      let s4 := { s3 with
        calls := s3.calls ++
          [Event.set_rx_bandwidth s3.openDev s3.bandWidth,
           Event.set_rx_sample_rate s3.openDev s3.sampleRate,
           Event.set_rx_gain_control s3.openDev s3.agcActive (vecGet s3.gainList s3.gainId),
           Event.set_frequency s3.openDev s3.freq],
        freq := d.tuned s3.openDev s3.freq }
      let s5 := { s4 with workerThread := true, calls := s4.calls ++ [Event.threadStart] }
      let s6 := { s5 with running := true }
      { s6 with calls := s6.calls ++ [Event.activate_channel s6.openDev true] }

/-- The handler `stop` (lines 340-353). -/
def stop (s : Module) : Module :=
  if s.running = false then s
  else
    let s1 := { s with running := false }
    let s2 := { s1 with calls := s1.calls ++
                  [Event.stopWriter, Event.activate_channel s1.openDev false] }
    let s3 := if s2.workerThread then
                { s2 with workerThread := false, calls := s2.calls ++ [Event.threadJoin] }
              else s2
    let s4 := { s3 with calls := s3.calls ++ [Event.clearWriteStop] }
    let s5 := match s4.read_buffer with
              | some _ => { s4 with calls := s4.calls ++ [Event.deleteBuffer] }
              | none => s4
    { s5 with read_buffer := none }

/-- The handler `tune` (lines 355-359) called with the argument `freq`. -/
def tune (d : Driver) (_freq : ℚ) (s : Module) : Module :=
  { s with calls := s.calls ++ [Event.set_frequency s.openDev s.freq],
           freq := d.tuned s.openDev s.freq }

/-- The device combo of `menuHandler` (lines 369-378) when the user picks entry `choice`. -/
def menuDeviceCombo (d : Driver) (choice : Int) (s : Module) : Except Fault Module :=
  match selectById d choice { s with devId := choice } with
  | Except.error f => Except.error f
  | Except.ok s1 =>
    if s1.selectedDevName = "" then Except.ok s1
    else Except.ok { s1 with config := { s1.config with device := some s1.selectedDevName } }

/-- The refresh button of `menuHandler` (lines 394-399). -/
def menuRefresh (d : Driver) (s : Module) : Except Fault Module :=
  selectByName d (refresh d s).selectedDevName (refresh d s)

/-! ## `worker` -/

/-- Rounding of a rational to the nearest integer, ties to even. -/
def roundHalfEven (q : ℚ) : Int :=
  if q - ⌊q⌋ < 1 / 2 then ⌊q⌋
  else if 1 / 2 < q - ⌊q⌋ then ⌊q⌋ + 1
  else if ⌊q⌋ % 2 = 0 then ⌊q⌋ else ⌊q⌋ + 1

/-- Rounding of a rational to the nearest IEEE-754 binary32 value (a `float`), ties to even:
24 significant bits, least exponent -126 with gradual underflow. Overflow to infinity, at
magnitudes from `2^128`, is not modelled. -/
def roundF32 (q : ℚ) : ℚ :=
  if q = 0 then 0
  else (roundHalfEven (q / 2 ^ (max (Int.log 2 |q|) (-126) - 23)) : ℚ)
    * 2 ^ (max (Int.log 2 |q|) (-126) - 23)

/-- The expression `x / 4096.0f` for an `int16_t` member `x`: the integer is converted to
`float`, and the quotient of two `float` values is rounded to `float`. -/
def divBy4096f (x : Int) : ℚ := roundF32 (roundF32 (x : ℚ) / roundF32 4096)

/-- The output stream as the worker sees it: the buffer `writeBuf` and the arguments of the
calls of `swap` made so far. -/
structure Stream where
  writeBuf : List (ℚ × ℚ)
  swapped : List Int
  deriving DecidableEq

/-- The conversion loop of `worker` (lines 539-543) from index `i`, with `todo` iterations
left; `none` when an index leaves `read_buffer` or `writeBuf`. -/
def convertLoop (read_buffer : List (Int × Int)) :
    Nat → Nat → List (ℚ × ℚ) → Option (List (ℚ × ℚ))
  | 0, _, writeBuf => some writeBuf
  | todo + 1, i, writeBuf =>
    match read_buffer.get? i with
    | none => none
    | some sample =>
      if i < writeBuf.length then
        convertLoop read_buffer todo (i + 1)
          (writeBuf.set i (divBy4096f sample.1, divBy4096f sample.2))
      else none

/-- One turn of the loop of `worker` (lines 536-544), given the count `samples_read` the
driver returned and the contents of `read_buffer` it left. -/
def workerTurn (samples_read : Int) (read_buffer : List (Int × Int)) (st : Stream) :
    Option Stream :=
  if samples_read ≤ 0 then some st
  else
    match convertLoop read_buffer samples_read.toNat 0 st.writeBuf with
    | none => none
    | some writeBuf => some { writeBuf := writeBuf, swapped := st.swapped ++ [samples_read] }

/-! ## Sequences of `start` and `stop` -/

/-- A call of one of the two handlers; `start` comes with the answers the driver gives
during it. -/
inductive Call where
  | start (d : Driver)
  | stop

/-- The module after a sequence of calls. -/
def runCalls : List Call → Module → Module
  | [], s => s
  | Call.start d :: rest, s => runCalls rest (start d s)
  | Call.stop :: rest, s => runCalls rest (stop s)

/-- Number of sample buffers allocated in a log of calls. -/
def allocations : List Event → Nat
  | [] => 0
  | Event.newBuffer _ :: rest => allocations rest + 1
  | _ :: rest => allocations rest

/-- Number of sample buffers freed in a log of calls. -/
def frees : List Event → Nat
  | [] => 0
  | Event.deleteBuffer :: rest => frees rest + 1
  | _ :: rest => frees rest

/-- The state in which the handlers are first called: idle, no buffer, no thread, no
allocation made. -/
def InitialIdle (s : Module) : Prop :=
  s.running = false ∧ s.read_buffer = none ∧ s.workerThread = false ∧
    allocations s.calls = 0 ∧ frees s.calls = 0

/-! ## What the specification says of the catalog -/

/-- The eight upper-case hexadecimal digits of a 32-bit number, zeros included. -/
def hex8 (n : Nat) : String :=
  String.mk ((List.range 8).map fun k => hexDigitUpper (n / 16 ^ (7 - k) % 16))

/-- The descriptor of channel `i` of the unit with serial `s`: the serial in brackets, a
blank, the channel index, a colon and the channel name. -/
def descriptor (s i : Nat) (name : String) : String :=
  "[" ++ hex8 s ++ "] " ++ toString i ++ ":" ++ name

/-- The catalog of a detected unit: the descriptors of the channels 0 and 1 that the driver
names, in this order. -/
def catalogOf (d : Driver) : List String :=
  (List.range 2).filterMap fun i => (d.channelName i).map (descriptor (d.serial % 2 ^ 32) i)

/-! ## Concrete drivers and stores -/

/-- A driver with a unit of serial `0xDEADBEEF` whose two channels are named, whose
initialisation succeeds, and whose gain limits are 0 to 100 in steps of 25. -/
def demoDriver : Driver :=
  { detected := true, serial := 0xDEADBEEF,
    channelName := fun i => if i = 0 then some "S1G" else if i = 1 then some "HiF" else none,
    initOk := true,
    radio := fun ch => if ch = 0 then some 10 else if ch = 1 then some 11 else none,
    gainLimits := fun _ => (0, 100, 25), mtu := fun _ => 4096, tuned := fun _ f => f }

/-- The driver `demoDriver` with an initialisation that fails. -/
def failingInitDriver : Driver := { demoDriver with initOk := false }

/-- The driver `demoDriver` with both channel naming calls failing. -/
def namelessDriver : Driver := { demoDriver with channelName := fun _ => none }

/-- Members without initialiser that happen to hold a null pointer and zeros. -/
def zeroMemory : Uninit := { openDev := none, freq := 0, bandWidth := 0 }

/-- The store written by `_INIT_` on a first run: `device` is the number 0, `devices` is
empty. -/
def emptyStore : Config := { device := none, devices := [] }

/-- A store whose entry for channel 0 holds the gain index 10. -/
def storedGainTen : Config :=
  { device := some "[DEADBEEF] 0:S1G",
    devices := [("[DEADBEEF] 0:S1G",
      { sampleRate := some 4000000, bandwidth := some 2500000, agc := some false,
        gain := some 10 })] }

/-- A store that names channel 1 as the last selected device. -/
def secondChannelStore : Config := { device := some "[DEADBEEF] 1:HiF", devices := [] }

/-- A store whose entry for channel 0 holds an AGC flag that is set and the gain index 3. -/
def agcStore : Config :=
  { device := some "[DEADBEEF] 0:S1G", devices := [("[DEADBEEF] 0:S1G", newEntry true 3)] }

/-- A store whose entry for channel 0 has no key `bandwidth`. -/
def noBandwidthStore : Config :=
  { device := some "[DEADBEEF] 0:S1G",
    devices := [("[DEADBEEF] 0:S1G",
      { sampleRate := some 4000000, bandwidth := none, agc := some false, gain := some 0 })] }

/-- The module inside the constructor just before line 120 selects a device, the members
without initialiser holding zeros. -/
def beforeSelection (d : Driver) (cfg : Config) : Module :=
  loadDeviceKey (refresh d (initialMembers cfg zeroMemory))

/-- The members `srId`, `sampleRate`, `bwId` and `bandWidth` agree with the tables: the
sample rate is `sampleRates[srId]` and the bandwidth is `bandWidths[bwId]`. -/
def ParamsInTables (s : Module) : Prop :=
  vecGet sampleRates s.srId = some s.sampleRate ∧ vecGet bandWidths s.bwId = some s.bandWidth

/-- The bookkeeping kept by `start` and `stop`: a buffer is allocated exactly when the
module runs, a worker thread is joinable exactly when the module runs, and the log holds
as many allocations as frees, plus one while the module runs. -/
def Balanced (s : Module) : Prop :=
  s.read_buffer.isSome = s.running ∧ s.workerThread = s.running ∧
    allocations s.calls = frees s.calls + (if s.running then 1 else 0)

/-- The driver `demoDriver` with the two channels named `name0` and `name1`. -/
def twoNamed (name0 name1 : String) : Driver :=
  { demoDriver with
    channelName := fun i => if i = 0 then some name0 else if i = 1 then some name1 else none }

/-- The driver `demoDriver` with `cariboulite_get_radio` returning `NULL`. -/
def noRadioDriver : Driver := { demoDriver with radio := fun _ => none }

/-- The module the constructor returns on `demoDriver` with an empty store: channel 0 is
selected. -/
def demoModule : Module :=
  match construct demoDriver emptyStore zeroMemory with
  | Except.ok s => s
  | Except.error _ => initialMembers emptyStore zeroMemory

/-- Two starts, two stops, and a start whose handle cannot be obtained. -/
def demoCalls : List Call :=
  [Call.start demoDriver, Call.start demoDriver, Call.stop, Call.stop,
    Call.start noRadioDriver]

/-- Three raw samples at the ends and the middle of the range of `int16_t`. -/
def demoSamples : List (Int × Int) := [(-32768, 32767), (0, 0), (32767, -32768)]

/-- A stream with a write buffer of four samples and no call of `swap` yet. -/
def demoStream : Stream := { writeBuf := [(0, 0), (0, 0), (0, 0), (0, 0)], swapped := [] }

/-- The arithmetic progression `min_gain, min_gain + step_gain, ...,
min_gain + k * step_gain`. -/
def progression (min_gain step_gain : Int) (k : Nat) : List Int :=
  (List.range (k + 1)).map fun (j : Nat) => min_gain + (j : Int) * step_gain

/-- The driver `demoDriver` reporting the greatest `int` as both gain limits, with step 1. -/
def saturatedDriver : Driver :=
  { demoDriver with gainLimits := fun _ => (2147483647, 2147483647, 1) }

/-! ## Theorems -/

/-- The call `tune` makes to the driver carries the member `freq`, whatever the argument. -/
theorem tune_calls (d : Driver) (f : ℚ) (s : Module) :
    (tune d f s).calls = s.calls ++ [Event.set_frequency s.openDev s.freq] := rfl

/-- C1, at a failing input. A module is constructed on `demoDriver` with an empty store and
a member `freq` that holds 0; channel 0 is selected and its handle 10 is open. The call
`tune(100000000)` then passes the frequency 0 to `cariboulite_radio_set_frequency`, not
100000000: the handler never stores its argument in the member it passes. -/
theorem tune_ignores_argument :
    (construct demoDriver emptyStore zeroMemory).map
        (fun s => (s.openDev, s.running, (tune demoDriver 100000000 s).calls.getLast?)) =
      Except.ok (some 10, false, some (Event.set_frequency (some 10) 0)) := by
  decide

/-- C2, at a failing input. The driver reports the gain limits 0, 100, 25 and the store
holds the gain index 10 for channel 0. The selection made by the constructor succeeds with
the table 0, 25, 50, 75, 100 and ends with `gainId = 10`, outside the table: line 234 clamps
before lines 264-267 load the stored index, and `updateGainTxt` then reads outside it. -/
theorem selectById_stored_gain_not_clamped :
    (construct demoDriver storedGainTen zeroMemory).map
        (fun s => (s.selectedDevName, s.openDev, s.gainList, s.gainId, s.dbTxt)) =
      Except.ok ("[DEADBEEF] 0:S1G", some 10, [0, 25, 50, 75, 100], 10,
        DbTxt.indeterminate) := by
  decide

/-- C3, at a failing input. The store names channel 1 as the last device, so the
constructor selects it through `selectByName`: the identity is that of catalog index 1 and
the handle is that of channel 1. The member `devId` is still 0, and `start` from idle opens
channel 0 and programs its handle 10. -/
theorem start_opens_devId_not_selection :
    (construct demoDriver secondChannelStore zeroMemory).map
        (fun s => (s.selectedDevName, vecGet s.devNames 1, s.openDev, s.running, s.devId,
          (start demoDriver s).calls.drop s.calls.length, (start demoDriver s).openDev)) =
      Except.ok ("[DEADBEEF] 1:HiF", some "[DEADBEEF] 1:HiF", some 11, false, 0,
        [Event.get_radio 0, Event.newBuffer 4096,
          Event.set_rx_bandwidth (some 10) 2500000,
          Event.set_rx_sample_rate (some 10) 4000000,
          Event.set_rx_gain_control (some 10) false (some 0),
          Event.set_frequency (some 10) 0, Event.threadStart,
          Event.activate_channel (some 10) true],
        some 10) := by
  rfl

/-! ### The steps of `selectById` and the store -/

theorem loadSampleRate_config (s : Module) : (loadSampleRate s).config = s.config := by
  unfold loadSampleRate
  split
  · dsimp only
    split <;> rfl
  · rfl

theorem loadBandwidth_config (s : Module) : (loadBandwidth s).config = s.config := by
  unfold loadBandwidth
  split
  · dsimp only
    split <;> rfl
  · rfl

theorem loadAgc_config (s : Module) : (loadAgc s).config = s.config := by
  unfold loadAgc
  split <;> rfl

theorem loadGain_config (s : Module) : (loadGain s).config = s.config := by
  unfold loadGain
  split <;> rfl

theorem clampGainId_config (s : Module) : (clampGainId s).config = s.config := by
  unfold clampGainId
  split <;> rfl

/-- The shape of a selection that reaches the end of `selectById`: the driver is or becomes
initialised, the handle is not null and the gain loop leaves. -/
theorem selectById_ok (d : Driver) (id : Int) (s : Module) (name : String) (h : Nat)
    (gains : List Int) (hname : vecGet s.devNames id = some name)
    (hinit : s.driverReady = true ∨ d.initOk = true) (hradio : d.radio id = some h)
    (hgains : rxGainList (d.gainLimits h).1 (d.gainLimits h).2.1 (d.gainLimits h).2.2
      = some gains) :
    selectById d id s = Except.ok (loadGain (loadAgc (loadBandwidth (loadSampleRate
      (updateGainTxt (clampGainId (createEntry
        { s with selectedDevName := name, driverReady := true,
                 calls := (if s.driverReady then s.calls else s.calls ++ [Event.init])
                    ++ [Event.get_radio id],
                 openDev := some h, gainList := gains }))))))) := by
  unfold selectById
  simp only [hname]
  rcases hinit with hr | hi
  · simp [hr, hradio, hgains]
  · cases hr : s.driverReady <;> simp [hr, hi, hradio, hgains]

/-- C4, a counterexample. Channel 0 is selected from a store that holds a set AGC flag and
the gain index 3 for it, which loads both into memory. Channel 1 has no entry; its
selection succeeds and writes an entry with `agc = true` and `gain = 3`, not `false` and
0. -/
theorem selectById_new_entry_not_default :
    ((construct demoDriver agcStore zeroMemory).bind fun s =>
      (selectById demoDriver 1 s).map fun t =>
        (s.agcActive, s.gainId, s.config.contains "[DEADBEEF] 1:HiF",
          t.selectedDevName, t.openDev, t.config.entry "[DEADBEEF] 1:HiF",
          decide (t.config.entry "[DEADBEEF] 1:HiF" = newEntry false 0))) =
    Except.ok (true, 3, false, "[DEADBEEF] 1:HiF", some 11, newEntry true 3, false) := by
  rfl

/-- C4, amended. A selection that reaches the end of `selectById` for a display identity
without entry in the store adds one entry in front of the others, with `sampleRate`
4000000, `bandwidth` 2500000, and for `agc` and `gain` the values the members `agcActive`
and `gainId` have when `selectById` is called; nothing else in the store changes. -/
theorem selectById_new_entry_from_memory (d : Driver) (id : Int) (s : Module) (name : String)
    (h : Nat) (gains : List Int) (hname : vecGet s.devNames id = some name)
    (hinit : s.driverReady = true ∨ d.initOk = true) (hradio : d.radio id = some h)
    (hgains : rxGainList (d.gainLimits h).1 (d.gainLimits h).2.1 (d.gainLimits h).2.2
      = some gains)
    (hfresh : s.config.contains name = false) :
    (selectById d id s).map (fun t => (t.config, t.config.entry name)) =
      Except.ok
        ({ s.config with devices := (name, newEntry s.agcActive s.gainId) :: s.config.devices },
          newEntry s.agcActive s.gainId) := by
  rw [selectById_ok d id s name h gains hname hinit hradio hgains]
  simp only [Except.map, loadGain_config, loadAgc_config, loadBandwidth_config,
    loadSampleRate_config, updateGainTxt, clampGainId_config]
  simp [createEntry, hfresh, Config.entry, List.lookup]

/-- The amended C4 at the first selection made by the constructor on an empty store: the
members still hold `false` and 0, and these are the values written. -/
theorem selectById_new_entry_from_memory_witness :
    vecGet (beforeSelection demoDriver emptyStore).devNames 0 = some "[DEADBEEF] 0:S1G" ∧
    ((beforeSelection demoDriver emptyStore).driverReady = true ∨ demoDriver.initOk = true) ∧
    demoDriver.radio 0 = some 10 ∧
    rxGainList (demoDriver.gainLimits 10).1 (demoDriver.gainLimits 10).2.1
      (demoDriver.gainLimits 10).2.2 = some [0, 25, 50, 75, 100] ∧
    (beforeSelection demoDriver emptyStore).config.contains "[DEADBEEF] 0:S1G" = false ∧
    (selectById demoDriver 0 (beforeSelection demoDriver emptyStore)).map
        (fun t => (t.config, t.config.entry "[DEADBEEF] 0:S1G")) =
      Except.ok
        ({ device := some "", devices := [("[DEADBEEF] 0:S1G", newEntry false 0)] },
          newEntry false 0) :=
  ⟨by decide, by decide, by decide, by decide, by decide,
    selectById_new_entry_from_memory demoDriver 0 (beforeSelection demoDriver emptyStore)
      "[DEADBEEF] 0:S1G" 10 [0, 25, 50, 75, 100] (by decide) (by decide) (by decide)
      (by decide) (by decide)⟩

/-! ### Failed initialisation -/

/-- C5, at a failing input. Inside the constructor, with an empty store, nothing is selected
(`selectedDevName` is empty) and the driver is not initialised. The driver initialisation
fails, and `selectById(0)` returns with `selectedDevName` set to the identity of channel 0
instead of the empty string it held: line 195 assigns it before the initialisation is
tried, and the return of line 203 does not clear it as the return of lines 208-213 does.
The handle and the gain table are as before, and the guard of line 304 no longer stops
`start`, which runs the device that failed to initialise. -/
theorem selectById_init_failure_changes_name :
    (selectById failingInitDriver 0 (beforeSelection failingInitDriver emptyStore)).map
        (fun t => ((beforeSelection failingInitDriver emptyStore).driverReady,
          failingInitDriver.initOk,
          (beforeSelection failingInitDriver emptyStore).selectedDevName,
          t.selectedDevName, t.driverReady, t.openDev, t.gainList,
          (start failingInitDriver t).running)) =
      Except.ok (false, false, "", "[DEADBEEF] 0:S1G", false, none, [], true) := by
  rfl

/-- Support for C5. When the driver is not initialised and its initialisation fails,
`selectById` at a valid catalog index returns with every member other than
`selectedDevName` as it was before the call: the handle, the gain table, the sample rate,
bandwidth, AGC flag, gain index and frequency, and with the store unchanged. The log of
calls only gains the initialisation attempt. -/
theorem selectById_init_failure_keeps_session (d : Driver) (id : Int) (s : Module)
    (name : String) (hname : vecGet s.devNames id = some name)
    (hready : s.driverReady = false) (hinit : d.initOk = false) :
    (selectById d id s).map
        (fun t => { t with selectedDevName := s.selectedDevName, calls := s.calls }) =
      Except.ok s := by
  unfold selectById
  cases s
  simp_all [Except.map]

/-- The support for C5 at `selectById(1)` inside the constructor with a driver whose
initialisation fails. -/
theorem selectById_init_failure_keeps_session_witness :
    vecGet (beforeSelection failingInitDriver emptyStore).devNames 1
      = some "[DEADBEEF] 1:HiF" ∧
    (beforeSelection failingInitDriver emptyStore).driverReady = false ∧
    failingInitDriver.initOk = false ∧
    (selectById failingInitDriver 1 (beforeSelection failingInitDriver emptyStore)).map
        (fun t => { t with
          selectedDevName := (beforeSelection failingInitDriver emptyStore).selectedDevName,
          calls := (beforeSelection failingInitDriver emptyStore).calls }) =
      Except.ok (beforeSelection failingInitDriver emptyStore) :=
  ⟨by decide, by decide, by decide,
    selectById_init_failure_keeps_session failingInitDriver 1
      (beforeSelection failingInitDriver emptyStore) "[DEADBEEF] 1:HiF" (by decide)
      (by decide) (by decide)⟩

/-! ### Sample rate and bandwidth after a selection -/

/-- C6, at a failing input. The store holds an entry for channel 0 without the key
`bandwidth`, and the member `bandWidth`, which has no initialiser and is not set by the
constructor, holds 0. The selection made by the constructor succeeds and leaves
`bandWidth = 0`, which is not in `bandWidths` and is not `bandWidths[bwId] = 200000`; the
sample rate is `sampleRates[7]`. -/
theorem selectById_leaves_bandwidth_unset :
    (construct demoDriver noBandwidthStore zeroMemory).map
        (fun s => (s.selectedDevName, s.openDev, s.srId, s.sampleRate, s.bwId, s.bandWidth,
          decide (s.bandWidth ∈ bandWidths), vecGet bandWidths s.bwId)) =
      Except.ok ("[DEADBEEF] 0:S1G", some 10, 7, 4000000, 0, 0, false, some 200000) := by
  rfl

/-- The index found by a search loop holds the value searched for. -/
theorem scanTable_get (tbl : List ℚ) (k : Nat) (v : Int) (i : Nat)
    (h : scanTable tbl k v = some i) : k ≤ i ∧ tbl.get? (i - k) = some (v : ℚ) := by
  induction tbl generalizing k with
  | nil => simp [scanTable] at h
  | cons x xs ih =>
    unfold scanTable at h
    split at h
    · rename_i hx
      simp only [Option.some.injEq] at h
      subst h
      simp [hx]
    · obtain ⟨hle, hget⟩ := ih (k + 1) h
      refine ⟨by omega, ?_⟩
      have : i - k = (i - (k + 1)) + 1 := by omega
      rw [this, List.get?_cons_succ]
      exact hget

/-- A read at a natural index is a read of the list. -/
theorem vecGet_natCast {α : Type} (v : List α) (i : Nat) : vecGet v (i : Int) = v.get? i := by
  simp [vecGet]

theorem loadSampleRate_params (s : Module) (h : ParamsInTables s) :
    ParamsInTables (loadSampleRate s) := by
  unfold loadSampleRate
  split
  · dsimp only
    split
    · rename_i i hi
      have := (scanTable_get _ _ _ _ hi).2
      exact ⟨by simpa [vecGet_natCast] using this, h.2⟩
    · exact h
  · exact h

theorem loadBandwidth_params (s : Module) (h : ParamsInTables s) :
    ParamsInTables (loadBandwidth s) := by
  unfold loadBandwidth
  split
  · dsimp only
    split
    · rename_i i hi
      have := (scanTable_get _ _ _ _ hi).2
      exact ⟨h.1, by simpa [vecGet_natCast] using this⟩
    · exact h
  · exact h

theorem loadAgc_params (s : Module) (h : ParamsInTables s) : ParamsInTables (loadAgc s) := by
  unfold loadAgc
  split <;> exact h

theorem loadGain_params (s : Module) (h : ParamsInTables s) : ParamsInTables (loadGain s) := by
  unfold loadGain
  split <;> exact h

theorem clampGainId_params (s : Module) (h : ParamsInTables s) :
    ParamsInTables (clampGainId s) := by
  unfold clampGainId
  split <;> exact h

theorem createEntry_params (s : Module) (h : ParamsInTables s) :
    ParamsInTables (createEntry s) := by
  unfold createEntry
  split <;> exact h

/-- Support for C6. A selection that reaches the end of `selectById` keeps the sample rate
and the bandwidth in agreement with the tables when they agree before it: a stored value is
taken only when it is in the table, and otherwise the members are left as they are. The
constructor establishes the agreement for the sample rate (line 86) and not for the
bandwidth. -/
theorem selectById_keeps_params_in_tables (d : Driver) (id : Int) (s : Module)
    (name : String) (h : Nat) (gains : List Int) (hname : vecGet s.devNames id = some name)
    (hinit : s.driverReady = true ∨ d.initOk = true) (hradio : d.radio id = some h)
    (hgains : rxGainList (d.gainLimits h).1 (d.gainLimits h).2.1 (d.gainLimits h).2.2
      = some gains)
    (hs : ParamsInTables s) :
    ∃ t, selectById d id s = Except.ok t ∧ ParamsInTables t := by
  refine ⟨_, selectById_ok d id s name h gains hname hinit hradio hgains, ?_⟩
  apply loadGain_params
  apply loadAgc_params
  apply loadBandwidth_params
  apply loadSampleRate_params
  apply clampGainId_params
  apply createEntry_params
  exact hs

/-! ### `start` and `stop` -/

theorem allocations_append (l₁ l₂ : List Event) :
    allocations (l₁ ++ l₂) = allocations l₁ + allocations l₂ := by
  induction l₁ with
  | nil => simp [allocations]
  | cons e l ih => cases e <;> simp [allocations, ih]; omega

theorem frees_append (l₁ l₂ : List Event) : frees (l₁ ++ l₂) = frees l₁ + frees l₂ := by
  induction l₁ with
  | nil => simp [frees]
  | cons e l ih => cases e <;> simp [frees, ih]; omega

theorem initialIdle_balanced (s : Module) (h : InitialIdle s) : Balanced s := by
  obtain ⟨hr, hb, ht, ha, hf⟩ := h
  simp [Balanced, hr, hb, ht, ha, hf]

/-- The handler `start` keeps the bookkeeping, whether it returns early or launches. -/
theorem start_balanced (d : Driver) (s : Module) (h : Balanced s) : Balanced (start d s) := by
  obtain ⟨hb, ht, hc⟩ := h
  unfold start
  split
  · exact ⟨hb, ht, hc⟩
  · rename_i hr
    simp only [Bool.not_eq_true] at hr
    split
    · exact ⟨hb, ht, hc⟩
    · dsimp only
      split
      · simp_all [Balanced, allocations_append, frees_append, allocations, frees]
      · simp_all [Balanced, allocations_append, frees_append, allocations, frees]

/-- The handler `stop` keeps the bookkeeping. -/
theorem stop_balanced (s : Module) (h : Balanced s) : Balanced (stop s) := by
  obtain ⟨hb, ht, hc⟩ := h
  unfold stop
  split
  · exact ⟨hb, ht, hc⟩
  · rename_i hr
    simp only [Bool.not_eq_false] at hr
    obtain ⟨n, hn⟩ : ∃ n, s.read_buffer = some n := by
      rw [hr] at hb
      exact Option.isSome_iff_exists.mp hb
    simp_all [Balanced, allocations_append, frees_append, allocations, frees]

theorem stop_running (s : Module) : (stop s).running = false := by
  unfold stop
  split
  · assumption
  · cases hw : s.workerThread <;> cases hb : s.read_buffer <;> simp [hw, hb]

theorem runCalls_balanced (calls : List Call) (s : Module) (h : Balanced s) :
    Balanced (runCalls calls s) := by
  induction calls generalizing s with
  | nil => exact h
  | cons c rest ih =>
    cases c with
    | start d => exact ih _ (start_balanced d s h)
    | stop => exact ih _ (stop_balanced s h)

/-- C7. After every finite sequence of `start` and `stop` calls from an initial idle state,
whatever the driver answers during each `start`: the sample buffer is allocated exactly
when the module runs; the worker thread is joinable exactly when the module runs; the
numbers of allocations and frees are equal when the module is idle and differ by one when
it runs; a further `start` while running and a further `stop` while idle return the same
state; and after a further `stop` the module is idle with no joinable thread and no
buffer. -/
theorem start_stop_balanced (calls : List Call) (s : Module) (h : InitialIdle s) :
    ((runCalls calls s).read_buffer.isSome = (runCalls calls s).running) ∧
    ((runCalls calls s).workerThread = (runCalls calls s).running) ∧
    ((runCalls calls s).running = false →
      allocations (runCalls calls s).calls = frees (runCalls calls s).calls) ∧
    ((runCalls calls s).running = true →
      allocations (runCalls calls s).calls = frees (runCalls calls s).calls + 1) ∧
    (∀ d, (runCalls calls s).running = true →
      start d (runCalls calls s) = runCalls calls s) ∧
    ((runCalls calls s).running = false → stop (runCalls calls s) = runCalls calls s) ∧
    (stop (runCalls calls s)).running = false ∧
    (stop (runCalls calls s)).workerThread = false ∧
    (stop (runCalls calls s)).read_buffer = none := by
  have hbal := runCalls_balanced calls s (initialIdle_balanced s h)
  have hstop := stop_balanced _ hbal
  obtain ⟨hb, ht, hc⟩ := hbal
  have hsr := stop_running (runCalls calls s)
  refine ⟨hb, ht, ?_, ?_, ?_, ?_, hsr, ?_, ?_⟩
  · intro hr
    simpa [hr] using hc
  · intro hr
    simpa [hr] using hc
  · intro d hr
    simp [start, hr]
  · intro hr
    simp [stop, hr]
  · rw [hstop.2.1, hsr]
  · have := hstop.1
    rw [hsr] at this
    simpa using this

/-- C7 at the module built on `demoDriver` and the calls `demoCalls`. -/
theorem start_stop_balanced_witness :
    InitialIdle demoModule ∧
    (((runCalls demoCalls demoModule).read_buffer.isSome
        = (runCalls demoCalls demoModule).running) ∧
    ((runCalls demoCalls demoModule).workerThread = (runCalls demoCalls demoModule).running) ∧
    ((runCalls demoCalls demoModule).running = false →
      allocations (runCalls demoCalls demoModule).calls
        = frees (runCalls demoCalls demoModule).calls) ∧
    ((runCalls demoCalls demoModule).running = true →
      allocations (runCalls demoCalls demoModule).calls
        = frees (runCalls demoCalls demoModule).calls + 1) ∧
    (∀ d, (runCalls demoCalls demoModule).running = true →
      start d (runCalls demoCalls demoModule) = runCalls demoCalls demoModule) ∧
    ((runCalls demoCalls demoModule).running = false →
      stop (runCalls demoCalls demoModule) = runCalls demoCalls demoModule) ∧
    (stop (runCalls demoCalls demoModule)).running = false ∧
    (stop (runCalls demoCalls demoModule)).workerThread = false ∧
    (stop (runCalls demoCalls demoModule)).read_buffer = none) :=
  ⟨⟨rfl, rfl, rfl, rfl, rfl⟩,
    start_stop_balanced demoCalls demoModule ⟨rfl, rfl, rfl, rfl, rfl⟩⟩

/-! ### The catalog -/

theorem hexDigitUpper_of_zero (x : Nat) (h : x = 0) : Char.ofNat 48 = hexDigitUpper x := by
  subst h
  decide

/-- The digits printed by `%08X` are the eight digits of the number, zeros included. -/
theorem hexDigits_eight (m : Nat) :
    List.replicate (8 - (hexDigitsCore 8 m []).length) (Char.ofNat 48) ++ hexDigitsCore 8 m []
      = (List.range 8).map fun k => hexDigitUpper (m / 16 ^ (7 - k) % 16) := by
  have e : (List.range 8).map (fun k => hexDigitUpper (m / 16 ^ (7 - k) % 16))
      = [hexDigitUpper (m / 16 ^ 7 % 16), hexDigitUpper (m / 16 ^ 6 % 16),
         hexDigitUpper (m / 16 ^ 5 % 16), hexDigitUpper (m / 16 ^ 4 % 16),
         hexDigitUpper (m / 16 ^ 3 % 16), hexDigitUpper (m / 16 ^ 2 % 16),
         hexDigitUpper (m / 16 ^ 1 % 16), hexDigitUpper (m / 16 ^ 0 % 16)] := rfl
  rw [e]
  simp only [hexDigitsCore, Nat.div_div_eq_div_mul]
  norm_num
  split_ifs <;> simp [List.replicate]
  all_goals split_ands
  all_goals exact hexDigitUpper_of_zero _ (by omega)

theorem fmt08X_eq_hex8 (n : Nat) : fmt08X n = hex8 (n % 2 ^ 32) := by
  unfold fmt08X hex8
  exact congrArg String.mk (hexDigits_eight (n % 2 ^ 32))

theorem formatDevName_eq_descriptor (serial i : Nat) (name : String) :
    formatDevName serial i name = descriptor (serial % 2 ^ 32) i name := by
  unfold formatDevName descriptor
  rw [fmt08X_eq_hex8]

/-- The loop of `refresh` appends the descriptors of the named channels among the indices
it visits, in increasing order. -/
theorem refreshLoop_devNames (d : Driver) (serial : Nat) (todo i : Nat) (s : Module) :
    (refreshLoop d serial todo i s).devNames = s.devNames ++
      (List.range' i todo).filterMap fun j =>
        (d.channelName j).map (descriptor (serial % 2 ^ 32) j) := by
  induction todo generalizing i s with
  | zero => simp [refreshLoop]
  | succ n ih =>
    unfold refreshLoop
    cases hc : d.channelName i with
    | none => simp [ih, List.range'_succ, hc]
    | some name => simp [ih, List.range'_succ, hc, formatDevName_eq_descriptor]

theorem refreshLoop_devCount (d : Driver) (serial : Nat) (todo i : Nat) (s : Module) :
    (refreshLoop d serial todo i s).devCount = s.devCount := by
  induction todo generalizing i s with
  | zero => rfl
  | succ n ih =>
    unfold refreshLoop
    cases hc : d.channelName i <;> simp [ih]

theorem refresh_devNames (d : Driver) (s : Module) :
    (refresh d s).devNames = if d.detected then catalogOf d else [] := by
  unfold refresh
  rw [refreshLoop_devNames]
  cases hd : d.detected
  · simp
  · simp [catalogOf, List.range_eq_range']

theorem refresh_devCount (d : Driver) (s : Module) :
    (refresh d s).devCount = if d.detected then 2 else 0 := by
  unfold refresh
  rw [refreshLoop_devCount]

/-- C8, at a failing input. The driver detects a unit and both channel naming calls fail:
`refresh` leaves an empty catalog and `devCount = 2`. The call `selectFirst` is then not a
no-op: it calls `selectById(0)`, which reads `devNames[0]` outside the empty catalog. -/
theorem selectFirst_reads_outside_empty_catalog :
    ((refresh namelessDriver (initialMembers emptyStore zeroMemory)).devNames,
      (refresh namelessDriver (initialMembers emptyStore zeroMemory)).devCount,
      selectFirst namelessDriver
        (refresh namelessDriver (initialMembers emptyStore zeroMemory))) =
    ([], 2, Except.error Fault.catalogOutOfRange) := by
  rfl

/-- Support for C8. After a `refresh`, `selectFirst` is a no-op when no unit is detected,
and is `selectById(0)` when the catalog holds a descriptor; when a unit is detected and no
channel is named it reads outside the catalog. -/
theorem selectFirst_after_refresh (d d2 : Driver) (s : Module) :
    (d.detected = false → selectFirst d2 (refresh d s) = Except.ok (refresh d s)) ∧
    ((refresh d s).devNames ≠ [] →
      selectFirst d2 (refresh d s) = selectById d2 0 (refresh d s)) ∧
    (d.detected = true → (refresh d s).devNames = [] →
      selectFirst d2 (refresh d s) = Except.error Fault.catalogOutOfRange) := by
  refine ⟨?_, ?_, ?_⟩
  · intro hd
    simp [selectFirst, refresh_devCount, hd]
  · intro hne
    have hd : d.detected = true := by
      by_contra hd
      simp [refresh_devNames, hd] at hne
    simp [selectFirst, refresh_devCount, hd]
  · intro hd hnil
    simp [selectFirst, refresh_devCount, hd, selectById, hnil, vecGet]

/-- C9. The catalog left by `refresh` depends on the answers of the driver alone: it is
empty when no unit is detected, and otherwise it is the list, by increasing channel index
over 0 and 1, of the descriptors of the channels the driver names, each made of the serial
as eight upper-case hexadecimal digits in brackets, a blank, the index, a colon and the
name; nothing of the previous catalog is kept. For the serial `0xDEADBEEF` and two named
channels it is the two descriptors that start with `[DEADBEEF] 0:` and `[DEADBEEF] 1:`. -/
theorem refresh_catalog (d : Driver) (s : Module) (name0 name1 : String) :
    (refresh d s).devNames = (if d.detected then catalogOf d else []) ∧
    (refresh (twoNamed name0 name1) s).devNames =
      ["[DEADBEEF] 0:" ++ name0, "[DEADBEEF] 1:" ++ name1] := by
  refine ⟨refresh_devNames d s, ?_⟩
  rw [refresh_devNames]
  have h8 : hex8 3735928559 = "DEADBEEF" := by decide
  have e0 : "[" ++ "DEADBEEF" ++ "] " ++ toString 0 ++ ":" = "[DEADBEEF] 0:" := by decide
  have e1 : "[" ++ "DEADBEEF" ++ "] " ++ toString 1 ++ ":" = "[DEADBEEF] 1:" := by decide
  simp [catalogOf, twoNamed, demoDriver, descriptor, List.range, List.range.loop]
  rw [h8, e0, e1]
  exact ⟨rfl, rfl⟩


/-! ### The conversion of samples -/

/-- Rounding an integer to an integer leaves it. -/
theorem roundHalfEven_intCast (n : Int) : roundHalfEven (n : ℚ) = n := by
  unfold roundHalfEven
  simp

/-- A rational `m * 2^k` with `|m| < 2^24` and `k >= -149` is a binary32 value: rounding
leaves it. -/
theorem roundF32_exact (m k : Int) (hm : |m| < 2 ^ 24) (hk : -149 ≤ k) :
    roundF32 ((m : ℚ) * 2 ^ k) = (m : ℚ) * 2 ^ k := by
  by_cases h0 : m = 0
  · simp [roundF32, h0]
  have hq : (m : ℚ) * 2 ^ k ≠ 0 := by
    apply mul_ne_zero
    · exact_mod_cast h0
    · exact zpow_ne_zero _ (by norm_num)
  have hpos : (0 : ℚ) < |(m : ℚ) * 2 ^ k| := abs_pos.mpr hq
  have hlt : |(m : ℚ) * 2 ^ k| < ((2 : ℕ) : ℚ) ^ (24 + k) := by
    have h2k : (0 : ℚ) < 2 ^ k := zpow_pos (by norm_num) k
    have hm2 : |(m : ℚ)| < 2 ^ (24 : ℤ) := by
      have : ((|m| : Int) : ℚ) < ((2 ^ 24 : Int) : ℚ) := by exact_mod_cast hm
      rw [Int.cast_abs] at this
      norm_num at this ⊢
      exact this
    rw [Nat.cast_ofNat, abs_mul, abs_of_pos h2k, zpow_add₀ (by norm_num)]
    exact mul_lt_mul_of_pos_right hm2 h2k
  have hlog : Int.log 2 |(m : ℚ) * 2 ^ k| < 24 + k :=
    (Int.lt_zpow_iff_log_lt (by norm_num) hpos).mp hlt
  have he : max (Int.log 2 |(m : ℚ) * 2 ^ k|) (-126) - 23 ≤ k := by
    rcases max_cases (Int.log 2 |(m : ℚ) * 2 ^ k|) (-126) with ⟨h, _⟩ | ⟨h, _⟩ <;> rw [h] <;> omega
  unfold roundF32
  rw [if_neg hq]
  generalize max (Int.log 2 |(m : ℚ) * 2 ^ k|) (-126) - 23 = e at he
  obtain ⟨j, hj⟩ : ∃ j : ℕ, k = e + j := ⟨(k - e).toNat, by omega⟩
  have hdiv : (m : ℚ) * 2 ^ k / 2 ^ e = ((m * 2 ^ j : Int) : ℚ) := by
    rw [hj, zpow_add₀ (by norm_num)]
    have : (2 : ℚ) ^ e ≠ 0 := zpow_ne_zero _ (by norm_num)
    field_simp
    ring
  rw [hdiv, roundHalfEven_intCast, hj, zpow_add₀ (by norm_num), zpow_natCast]
  push_cast
  ring

/-- For an `int16_t` value `x`, the `float` expression `x / 4096.0f` is the rational
`x / 4096`: the conversion, the constant and the quotient are all binary32 values. -/
theorem divBy4096f_exact (x : Int) (hx : -32768 ≤ x ∧ x ≤ 32767) :
    divBy4096f x = (x : ℚ) / 4096 := by
  have hm : |x| < 2 ^ 24 := by
    rw [abs_lt]
    constructor <;> omega
  have h1 : roundF32 (x : ℚ) = x := by
    simpa using roundF32_exact x 0 hm (by norm_num)
  have h2 : roundF32 4096 = 4096 := by
    simpa using roundF32_exact 4096 0 (by norm_num) (by norm_num)
  have h3 : roundF32 ((x : ℚ) / 4096) = (x : ℚ) / 4096 := by
    have := roundF32_exact x (-12) hm (by norm_num)
    have e : (x : ℚ) * 2 ^ (-12 : Int) = (x : ℚ) / 4096 := by
      rw [zpow_neg, div_eq_mul_inv]
      norm_num
    rwa [e] at this
  unfold divBy4096f
  rw [h1, h2, h3]

/-- The conversion loop stays inside both buffers when they hold the samples to convert; it
writes the index range it visits and leaves the indices below it. -/
theorem convertLoop_spec (rb : List (Int × Int)) (todo i : Nat) (wb : List (ℚ × ℚ))
    (hrb : i + todo ≤ rb.length) (hwb : i + todo ≤ wb.length) :
    ∃ out, convertLoop rb todo i wb = some out ∧ out.length = wb.length ∧
      (∀ k, i ≤ k → k < i + todo →
        out.get? k = (rb.get? k).map fun p => (divBy4096f p.1, divBy4096f p.2)) ∧
      (∀ k, k < i → out.get? k = wb.get? k) := by
  induction todo generalizing i wb with
  | zero =>
    refine ⟨wb, rfl, rfl, ?_, fun _ _ => rfl⟩
    intro k h1 h2
    omega
  | succ n ih =>
    have hi : i < rb.length := by omega
    have hiw : i < wb.length := by omega
    unfold convertLoop
    rw [List.get?_eq_get hi]
    simp only [hiw, if_true]
    obtain ⟨out, hout, hlen, hnew, hold⟩ :=
      ih (i + 1) (wb.set i (divBy4096f (rb.get ⟨i, hi⟩).1, divBy4096f (rb.get ⟨i, hi⟩).2))
        (by omega) (by simp; omega)
    refine ⟨out, hout, by simpa using hlen, ?_, ?_⟩
    · intro k h1 h2
      rcases Nat.eq_or_lt_of_le h1 with h | h
      · subst h
        rw [hold i (by omega), List.get?_eq_get hi]
        simp [hiw]
      · exact hnew k (by omega) (by omega)
    · intro k hk
      rw [hold k (by omega)]
      simp [List.getElem?_set_ne (Nat.ne_of_gt hk)]

/-- C10. For a batch of `samples_read > 0` raw samples of `int16_t` pairs that fits the read
buffer and the write buffer, one turn of the worker loop completes, hands `samples_read` to
`swap`, and leaves at every index `k < samples_read` of the write buffer the pair
`(I / 4096, Q / 4096)` of exact rationals, `(I, Q)` being the raw pair at index `k`: the
`float` division rounds nothing away. -/
theorem worker_conversion_exact (samples_read : Int) (read_buffer : List (Int × Int))
    (st : Stream) (hpos : 0 < samples_read) (hrb : samples_read ≤ read_buffer.length)
    (hwb : samples_read ≤ st.writeBuf.length)
    (hint16 : ∀ p ∈ read_buffer, (-32768 ≤ p.1 ∧ p.1 ≤ 32767) ∧ (-32768 ≤ p.2 ∧ p.2 ≤ 32767)) :
    ∃ out, workerTurn samples_read read_buffer st = some out ∧
      out.swapped = st.swapped ++ [samples_read] ∧
      ∀ k : Nat, (k : Int) < samples_read →
        ∃ p, read_buffer.get? k = some p ∧
          out.writeBuf.get? k = some ((p.1 : ℚ) / 4096, (p.2 : ℚ) / 4096) := by
  obtain ⟨n, rfl⟩ : ∃ n : Nat, samples_read = n := ⟨samples_read.toNat, by omega⟩
  obtain ⟨wb, hwb', _, hnew, _⟩ :=
    convertLoop_spec read_buffer n 0 st.writeBuf (by omega) (by omega)
  refine ⟨{ writeBuf := wb, swapped := st.swapped ++ [(n : Int)] }, ?_, rfl, ?_⟩
  · unfold workerTurn
    rw [if_neg (by omega)]
    simp [hwb']
  · intro k hk
    have hk' : k < read_buffer.length := by omega
    refine ⟨read_buffer.get ⟨k, hk'⟩, List.get?_eq_get hk', ?_⟩
    have hp := hint16 _ (List.get_mem read_buffer k hk')
    rw [hnew k (by omega) (by omega), List.get?_eq_get hk']
    simp only [Option.map]
    rw [divBy4096f_exact _ hp.1, divBy4096f_exact _ hp.2]


/-- The conversion at the ends and the middle of the range of `int16_t`. -/
theorem divBy4096f_boundary :
    divBy4096f (-32768) = -8 ∧ divBy4096f 0 = 0 ∧ divBy4096f 32767 = 32767 / 4096 := by
  refine ⟨?_, ?_, ?_⟩
  · rw [divBy4096f_exact _ (by norm_num)]
    norm_num
  · rw [divBy4096f_exact _ (by norm_num)]
    norm_num
  · rw [divBy4096f_exact _ (by norm_num)]
    norm_num

/-- C10 at a batch of three samples with the values -32768, 0 and 32767. -/
theorem worker_conversion_exact_witness :
    (0 : Int) < 3 ∧ (3 : Int) ≤ demoSamples.length ∧ (3 : Int) ≤ demoStream.writeBuf.length ∧
    (∀ p ∈ demoSamples,
      (-32768 ≤ p.1 ∧ p.1 ≤ 32767) ∧ (-32768 ≤ p.2 ∧ p.2 ≤ 32767)) ∧
    ∃ out, workerTurn 3 demoSamples demoStream = some out ∧
      out.swapped = demoStream.swapped ++ [3] ∧
      ∀ k : Nat, (k : Int) < 3 →
        ∃ p, demoSamples.get? k = some p ∧
          out.writeBuf.get? k = some ((p.1 : ℚ) / 4096, (p.2 : ℚ) / 4096) :=
  ⟨by decide, by decide, by decide, by decide,
    worker_conversion_exact 3 demoSamples demoStream (by decide) (by decide) (by decide)
      (by decide)⟩

/-! ### The stored gain index -/

theorem loadSampleRate_selectedDevName (s : Module) :
    (loadSampleRate s).selectedDevName = s.selectedDevName := by
  unfold loadSampleRate
  split
  · dsimp only
    split <;> rfl
  · rfl

theorem loadBandwidth_selectedDevName (s : Module) :
    (loadBandwidth s).selectedDevName = s.selectedDevName := by
  unfold loadBandwidth
  split
  · dsimp only
    split <;> rfl
  · rfl

theorem loadAgc_selectedDevName (s : Module) :
    (loadAgc s).selectedDevName = s.selectedDevName := by
  unfold loadAgc
  split <;> rfl

theorem clampGainId_selectedDevName (s : Module) :
    (clampGainId s).selectedDevName = s.selectedDevName := by
  unfold clampGainId
  split <;> rfl

theorem createEntry_selectedDevName (s : Module) :
    (createEntry s).selectedDevName = s.selectedDevName := by
  unfold createEntry
  split <;> rfl

theorem loadGain_gainId (s : Module) (g : Int)
    (h : (s.config.entry s.selectedDevName).gain = some g) :
    (loadGain s).gainId = toInt32 g := by
  unfold loadGain
  rw [h]
  rfl

theorem loadGain_gainList (s : Module) : (loadGain s).gainList = s.gainList := by
  unfold loadGain
  split <;> rfl

/-- Support for C2. A selection that reaches the end of `selectById` for a display identity
whose entry holds the key `gain` ends with `gainId` equal to the stored index narrowed to
`int`, whatever the length of the gain table. -/
theorem selectById_takes_stored_gain (d : Driver) (id : Int) (s : Module) (name : String)
    (h : Nat) (gains : List Int) (e : DevEntry) (g : Int)
    (hname : vecGet s.devNames id = some name)
    (hinit : s.driverReady = true ∨ d.initOk = true) (hradio : d.radio id = some h)
    (hgains : rxGainList (d.gainLimits h).1 (d.gainLimits h).2.1 (d.gainLimits h).2.2
      = some gains)
    (hentry : s.config.devices.lookup name = some e) (hg : e.gain = some g) :
    (selectById d id s).map (fun t => t.gainId) = Except.ok (toInt32 g) := by
  rw [selectById_ok d id s name h gains hname hinit hradio hgains]
  simp only [Except.map]
  congr 1
  apply loadGain_gainId
  simp only [loadAgc_config, loadBandwidth_config, loadSampleRate_config, updateGainTxt,
    clampGainId_config, loadAgc_selectedDevName, loadBandwidth_selectedDevName,
    loadSampleRate_selectedDevName, clampGainId_selectedDevName, createEntry_selectedDevName]
  simp [createEntry, Config.contains, Config.entry, hentry, hg]

/-! ### The gain table -/

/-- The gain loop, entered at `gain` with a positive step, pushes the `n` values
`gain + j * step_gain` that are at most `max_gain` and leaves, when it is given more than
`n` tests and its last increment stays in the range of `int`. -/
theorem gainLoop_progression (max_gain step_gain : Int) (hstep : 0 < step_gain) (n : Nat) :
    ∀ (fuel : Nat) (gain : Int) (acc : List Int), n < fuel → -2 ^ 31 ≤ gain →
      (∀ j : Nat, j < n → gain + (j : Int) * step_gain ≤ max_gain) →
      max_gain < gain + (n : Int) * step_gain → gain + (n : Int) * step_gain < 2 ^ 31 →
      gainLoop max_gain step_gain fuel gain acc
        = some (acc ++ (List.range n).map fun (j : Nat) => gain + (j : Int) * step_gain) := by
  induction n with
  | zero =>
    intro fuel gain acc hfuel _ _ hmax _
    obtain ⟨f, rfl⟩ : ∃ f, fuel = f + 1 := ⟨fuel - 1, by omega⟩
    have hgt : ¬ gain ≤ max_gain := by simpa using hmax
    simp [gainLoop, hgt]
  | succ n ih =>
    intro fuel gain acc hfuel hlow hin hmax hov
    obtain ⟨f, rfl⟩ : ∃ f, fuel = f + 1 := ⟨fuel - 1, by omega⟩
    have hle : gain ≤ max_gain := by simpa using hin 0 (by omega)
    have hns : (0 : Int) ≤ (n : Int) * step_gain :=
      mul_nonneg (Int.ofNat_nonneg n) (le_of_lt hstep)
    have hexp : gain + ((n + 1 : Nat) : Int) * step_gain
        = gain + step_gain + (n : Int) * step_gain := by
      push_cast
      ring
    rw [hexp] at hmax hov
    have hno : ¬ (gain + step_gain < -2 ^ 31 ∨ 2 ^ 31 ≤ gain + step_gain) := by
      intro h
      rcases h with h | h <;> omega
    have hrec := ih f (gain + step_gain) (acc ++ [gain]) (by omega) (by omega)
      (fun j hj => by
        have := hin (j + 1) (by omega)
        have e : gain + ((j + 1 : Nat) : Int) * step_gain
            = gain + step_gain + (j : Int) * step_gain := by
          push_cast
          ring
        rwa [e] at this)
      hmax hov
    unfold gainLoop
    rw [if_pos hle, if_neg hno, hrec, List.range_succ_eq_map]
    simp only [List.map_cons, List.map_map, List.append_assoc, List.singleton_append,
      Nat.cast_zero, zero_mul, add_zero]
    congr 3
    apply List.map_congr_left
    intro j _
    simp only [Function.comp, Nat.succ_eq_add_one]
    push_cast
    ring

/-- The loop of lines 220-223 leaves with the progression from `min_gain` in steps of
`step_gain` up to index `(max_gain - min_gain) / step_gain`, when the limits are `int`
values with `min_gain <= max_gain`, the step is positive and the last increment does not
overflow; the tests allowed by `rxGainList` are enough. -/
theorem rxGainList_progression (min_gain max_gain step_gain : Int)
    (hmin : -2 ^ 31 ≤ min_gain) (hle : min_gain ≤ max_gain) (hstep : 0 < step_gain)
    (hov : min_gain + ((max_gain - min_gain) / step_gain + 1) * step_gain < 2 ^ 31) :
    rxGainList min_gain max_gain step_gain
      = some (progression min_gain step_gain ((max_gain - min_gain) / step_gain).toNat) := by
  have hd : 0 ≤ max_gain - min_gain := by omega
  have hk : 0 ≤ (max_gain - min_gain) / step_gain := Int.ediv_nonneg hd (le_of_lt hstep)
  have hks : (max_gain - min_gain) / step_gain ≤ max_gain - min_gain := Int.ediv_le_self _ hd
  have hcast : ((((max_gain - min_gain) / step_gain).toNat + 1 : Nat) : Int)
      = (max_gain - min_gain) / step_gain + 1 := by
    push_cast
    rw [Int.toNat_of_nonneg hk]
  have h := gainLoop_progression max_gain step_gain hstep
    (((max_gain - min_gain) / step_gain).toNat + 1) ((max_gain - min_gain).toNat + 2)
    min_gain [] (by omega) hmin
    (fun j hj => by
      have hjk : (j : Int) ≤ (max_gain - min_gain) / step_gain := by omega
      have h1 : (j : Int) * step_gain ≤ (max_gain - min_gain) / step_gain * step_gain :=
        mul_le_mul_of_nonneg_right hjk (le_of_lt hstep)
      have h2 := Int.ediv_mul_le (max_gain - min_gain) (ne_of_gt hstep)
      omega)
    (by
      rw [hcast]
      have := Int.lt_ediv_add_one_mul_self (max_gain - min_gain) hstep
      omega)
    (by
      rw [hcast]
      exact hov)
  simpa [rxGainList, progression] using h

/-- A progression is not empty. -/
theorem progression_ne_nil (min_gain step_gain : Int) (k : Nat) :
    progression min_gain step_gain k ≠ [] := by
  simp [progression]

/-- A progression with a positive step is strictly increasing. -/
theorem progression_pairwise (min_gain step_gain : Int) (hstep : 0 < step_gain) (k : Nat) :
    (progression min_gain step_gain k).Pairwise (· < ·) := by
  unfold progression
  rw [List.pairwise_map]
  refine (List.pairwise_lt_range (k + 1)).imp ?_
  intro a b hab
  have h1 : (a : Int) < (b : Int) := by exact_mod_cast hab
  have h2 : (a : Int) * step_gain < (b : Int) * step_gain :=
    mul_lt_mul_of_pos_right h1 hstep
  omega

/-- The progression up to index `(max_gain - min_gain) / step_gain` stays at or below
`max_gain`. -/
theorem progression_le_max (min_gain max_gain step_gain : Int) (hle : min_gain ≤ max_gain)
    (hstep : 0 < step_gain) :
    ∀ g ∈ progression min_gain step_gain ((max_gain - min_gain) / step_gain).toNat,
      g ≤ max_gain := by
  intro g hg
  have hd : 0 ≤ max_gain - min_gain := by omega
  have hk : 0 ≤ (max_gain - min_gain) / step_gain := Int.ediv_nonneg hd (le_of_lt hstep)
  simp only [progression, List.mem_map, List.mem_range] at hg
  obtain ⟨j, hj, rfl⟩ := hg
  have hjk : (j : Int) ≤ (max_gain - min_gain) / step_gain := by omega
  have h1 : (j : Int) * step_gain ≤ (max_gain - min_gain) / step_gain * step_gain :=
    mul_le_mul_of_nonneg_right hjk (le_of_lt hstep)
  have h2 := Int.ediv_mul_le (max_gain - min_gain) (ne_of_gt hstep)
  omega

theorem loadSampleRate_gainList (s : Module) : (loadSampleRate s).gainList = s.gainList := by
  unfold loadSampleRate
  split
  · dsimp only
    split <;> rfl
  · rfl

theorem loadBandwidth_gainList (s : Module) : (loadBandwidth s).gainList = s.gainList := by
  unfold loadBandwidth
  split
  · dsimp only
    split <;> rfl
  · rfl

theorem loadAgc_gainList (s : Module) : (loadAgc s).gainList = s.gainList := by
  unfold loadAgc
  split <;> rfl

theorem clampGainId_gainList (s : Module) : (clampGainId s).gainList = s.gainList := by
  unfold clampGainId
  split <;> rfl

theorem createEntry_gainList (s : Module) : (createEntry s).gainList = s.gainList := by
  unfold createEntry
  split <;> rfl

/-- C11, a counterexample. The driver reports `min = max = 2147483647` and `step = 1`. The
claim gives the table `[2147483647]`; the loop pushes 2147483647 and then overflows `int`
in `gain += step_gain`, so the construction does not leave with a table and `selectById`
does not complete. -/
theorem gain_table_overflow :
    (rxGainList 2147483647 2147483647 1,
      progression 2147483647 1 (((2147483647 : Int) - 2147483647) / 1).toNat,
      selectById saturatedDriver 0 (beforeSelection saturatedDriver emptyStore)) =
    (none, [2147483647], Except.error Fault.gainLoop) := by
  rfl

/-- C11, amended. The driver reports `int` limits with `min <= max`, a positive step, and a
last increment `min + (k + 1) * step`, `k = (max - min) div step`, that stays below `2^31`
(it does when `max + step` does). Then a selection that opens the handle completes, and
its gain table is `[min, min + step, ..., min + k * step]` whatever the table held before:
not empty, strictly increasing, every element at most `max`. -/
theorem selectById_gain_table (d : Driver) (id : Int) (s : Module) (name : String) (h : Nat)
    (min_gain max_gain step_gain : Int) (hname : vecGet s.devNames id = some name)
    (hinit : s.driverReady = true ∨ d.initOk = true) (hradio : d.radio id = some h)
    (hlimits : d.gainLimits h = (min_gain, max_gain, step_gain))
    (hmin : -2 ^ 31 ≤ min_gain) (hle : min_gain ≤ max_gain) (hstep : 0 < step_gain)
    (hov : min_gain + ((max_gain - min_gain) / step_gain + 1) * step_gain < 2 ^ 31) :
    ∃ t, selectById d id s = Except.ok t ∧
      t.gainList = progression min_gain step_gain ((max_gain - min_gain) / step_gain).toNat ∧
      t.gainList ≠ [] ∧ t.gainList.Pairwise (· < ·) ∧ ∀ g ∈ t.gainList, g ≤ max_gain := by
  have hg := rxGainList_progression min_gain max_gain step_gain hmin hle hstep hov
  have hsel := selectById_ok d id s name h _ hname hinit hradio (by rw [hlimits]; exact hg)
  refine ⟨_, hsel, ?_⟩
  have hlist : ∀ t : Module, (loadGain (loadAgc (loadBandwidth (loadSampleRate
      (updateGainTxt (clampGainId (createEntry t))))))).gainList = t.gainList := by
    intro t
    rw [loadGain_gainList, loadAgc_gainList, loadBandwidth_gainList, loadSampleRate_gainList]
    simp only [updateGainTxt]
    rw [clampGainId_gainList, createEntry_gainList]
  rw [hlist]
  exact ⟨rfl, progression_ne_nil _ _ _, progression_pairwise _ _ hstep _,
    progression_le_max _ _ _ hle hstep⟩

/-- The amended C11 at the limits 0, 100, 25: the table is 0, 25, 50, 75, 100. -/
theorem selectById_gain_table_witness :
    vecGet (beforeSelection demoDriver emptyStore).devNames 0 = some "[DEADBEEF] 0:S1G" ∧
    ((beforeSelection demoDriver emptyStore).driverReady = true ∨ demoDriver.initOk = true) ∧
    demoDriver.radio 0 = some 10 ∧ demoDriver.gainLimits 10 = (0, 100, 25) ∧
    (-2 ^ 31 : Int) ≤ 0 ∧ (0 : Int) ≤ 100 ∧ (0 : Int) < 25 ∧
    (0 : Int) + ((100 - 0) / 25 + 1) * 25 < 2 ^ 31 ∧
    ∃ t, selectById demoDriver 0 (beforeSelection demoDriver emptyStore) = Except.ok t ∧
      t.gainList = [0, 25, 50, 75, 100] ∧
      t.gainList ≠ [] ∧ t.gainList.Pairwise (· < ·) ∧ ∀ g ∈ t.gainList, g ≤ 100 :=
  ⟨by decide, by decide, by decide, by decide, by decide, by decide, by decide, by decide,
    selectById_gain_table demoDriver 0 (beforeSelection demoDriver emptyStore)
      "[DEADBEEF] 0:S1G" 10 0 100 25 (by decide) (by decide) (by decide) (by decide)
      (by decide) (by decide) (by decide) (by decide)⟩

end CaribouLite
